import Mathlib

/-!
Shallow embedding of the emergency-department orchestration agent
(agent.py).  Times (Python datetimes) are modelled as integers
of minutes; every place where the source reads the wall clock
(datetime.now()) receives an explicit `wallNow` argument giving the
value of the clock at that evaluation instant.  The event log
(rag.enregistrer_log) is an external sink and is not modelled.
-/

namespace Hopital

inductive Gravite where
  | ROUGE | JAUNE | VERT | GRIS
deriving DecidableEq

inductive StatutPatient where
  | EN_ATTENTE | EN_CONSULTATION | TRANSFERE | PARTI
deriving DecidableEq

inductive StatutPersonnel where
  | DISPONIBLE | OCCUPE | EN_TRANSPORT
deriving DecidableEq

/-- String value of a severity, as Python reads it via the Enum value. -/
def Gravite.value : Gravite → String
  | .ROUGE => "ROUGE"
  | .JAUNE => "JAUNE"
  | .VERT => "VERT"
  | .GRIS => "GRIS"

structure Patient where
  id : String
  prenom : String
  nom : String
  gravite : Gravite
  type_maladie : List String
  heure_arrivee : ℤ
  statut : StatutPatient := .EN_ATTENTE
  salle : Option Int := none
deriving DecidableEq

/-- Source method Patient.temps_attente_minutes: the code computes
(datetime.now() - heure_arrivee) in minutes; `wallNow` is the value of
datetime.now() at the evaluation instant. -/
def Patient.temps_attente_minutes (p : Patient) (wallNow : ℤ) : ℤ :=
  wallNow - p.heure_arrivee

/-- Source method Patient.priorite_effective (agent.py lines 57-79). -/
def Patient.priorite_effective (p : Patient) (wallNow : ℤ) : Int :=
  if p.gravite = .ROUGE then 1
  else if p.gravite = .VERT ∧ p.temps_attente_minutes wallNow > 360 then 2
  else if p.gravite = .JAUNE then 3
  else if p.gravite = .VERT then 4
  else 5

/-- Spec-side definition: the priority table exactly as claim C1 words it
(CRITICAL/ROUGE to 1; MINOR/VERT to 2 when wait strictly above 360 and to 4
otherwise; URGENT/JAUNE to 3; NONURGENT/GRIS to 5). -/
def claimedPriority (g : Gravite) (attente : ℤ) : Int :=
  match g with
  | .ROUGE => 1
  | .JAUNE => 3
  | .VERT => if attente > 360 then 2 else 4
  | .GRIS => 5

structure SalleAttente where
  numero : Int
  capacite : ℕ
  patients : List String
  derniere_surveillance : ℤ
deriving DecidableEq

/-- Source method SalleAttente.a_de_la_place. -/
def SalleAttente.a_de_la_place (s : SalleAttente) : Prop :=
  s.patients.length < s.capacite

instance (s : SalleAttente) : Decidable s.a_de_la_place := by
  unfold SalleAttente.a_de_la_place; infer_instance

structure Personnel where
  id : String
  nom : String
  type : String
  statut : StatutPersonnel := .DISPONIBLE
  patient_en_charge : Option String := none
  fin_activite : Option ℤ := none
deriving DecidableEq

structure Unite where
  nom : String
  capacite : ℕ
  patients_actuels : ℕ := 0
  specialites : List String := []
deriving DecidableEq

/-- Source method Unite.a_de_la_place. -/
def Unite.a_de_la_place (u : Unite) : Prop :=
  u.patients_actuels < u.capacite

instance (u : Unite) : Decidable u.a_de_la_place := by
  unfold Unite.a_de_la_place; infer_instance

/-- One entry of the RAG priority rules (regles_priorite, key "niveaux"). -/
structure Niveau where
  gravite : String
  temps_consultation_max : Option ℕ := none
deriving DecidableEq

/-- RAG priority rules; `none` models a configuration missing the
"niveaux" key. -/
structure ReglesPriorite where
  niveaux : Option (List Niveau) := none
deriving DecidableEq

structure RegleGris where
  transfert : String
  description : String
deriving DecidableEq

structure RegleRouge where
  transfert_prioritaire : String
  description : String
deriving DecidableEq

/-- RAG special rules; `none` models a configuration missing the key. -/
structure ReglesSpeciales where
  gris : Option RegleGris := none
  rouge : Option RegleRouge := none
deriving DecidableEq

/-!
The Python objects are aliased (the same Patient object is referenced
from rooms, queues and staff).  The embedding therefore keeps a single
heap of patients indexed by id; all other collections hold patient ids.
The RAG configuration is read-only state carried in the agent record.
-/

structure AgentState where
  salles : List SalleAttente
  docteur : Personnel
  infirmieres : List Personnel
  aides_soignants : List Personnel
  unites : List Unite
  patients : List Patient
  patients_en_attente : List String
  patients_consultes : List String
  patients_transferes : List String
  violations : List String
  regles_priorite : ReglesPriorite
  regles_speciales : ReglesSpeciales
deriving DecidableEq

def lookupPatient (s : AgentState) (pid : String) : Option Patient :=
  s.patients.find? (fun p => p.id == pid)

/-- Total lookup used where the source dereferences an object that is
guaranteed present in well-formed states. -/
def getPatientD (s : AgentState) (pid : String) : Patient :=
  (lookupPatient s pid).getD
    { id := pid, prenom := "", nom := "", gravite := .GRIS,
      type_maladie := [], heure_arrivee := 0 }

/-- Mutation of a patient object: rewrite the (unique) heap entry. -/
def updatePatient (s : AgentState) (pid : String) (f : Patient → Patient) :
    AgentState :=
  { s with patients := s.patients.map (fun p => if p.id == pid then f p else p) }

/-! ### Stable sort

Python's builtin `sorted` is a stable sort by key.  The model below is a
structurally recursive stable insertion sort; a stable sort with respect
to a total transitive boolean preorder is unique, so this is
observationally the function computed by `sorted`.
-/

def stableInsert (le : α → α → Bool) (x : α) : List α → List α
  | [] => [x]
  | y :: ys => if le x y then x :: y :: ys else y :: stableInsert le x ys

def stableSort (le : α → α → Bool) : List α → List α
  | [] => []
  | x :: xs => stableInsert le x (stableSort le xs)

/-! ### Admission (AgentOrchestration.accueillir_patient) -/

inductive AccueilResult where
  | assigned (salle : Int)
  | aucuneSalle (capacite_totale occupation : ℕ)
deriving DecidableEq

/-- Scan of the room list in configured order: the patient id is appended
to the first room with spare capacity (SalleAttente.ajouter_patient);
returns the rebuilt room list and the room number. -/
def placerDansPremiereSalle (pid : String) :
    List SalleAttente → Option (List SalleAttente × Int)
  | [] => none
  | salle :: rest =>
    if salle.patients.length < salle.capacite then
      some ({ salle with patients := salle.patients ++ [pid] } :: rest,
        salle.numero)
    else
      match placerDansPremiereSalle pid rest with
      | some (rest2, n) => some (salle :: rest2, n)
      | none => none

/-- Source method AgentOrchestration.accueillir_patient (lines 228-277).
The incoming Patient object enters the heap; its salle field is set by
ajouter_patient.  On failure a SALLE_PLEINE violation is recorded and
nothing else changes. -/
def accueillir_patient (s : AgentState) (pat : Patient) :
    AgentState × AccueilResult :=
  match placerDansPremiereSalle pat.id s.salles with
  | some (salles2, n) =>
    ({ s with
        salles := salles2,
        patients := s.patients ++ [{ pat with salle := some n }],
        patients_en_attente := s.patients_en_attente ++ [pat.id] },
      .assigned n)
  | none =>
    ({ s with violations := s.violations ++ [pat.id] },
      .aucuneSalle (s.salles.map (fun sa => sa.capacite)).sum
        (s.salles.map (fun sa => sa.patients.length)).sum)

/-! ### Priority queue (AgentOrchestration.calculer_file_priorite) -/

/-- Sort key used by the source: the tuple
(p.priorite_effective(), p.heure_arrivee). -/
def cleFile (s : AgentState) (wallNow : ℤ) (pid : String) : Int × ℤ :=
  ((getPatientD s pid).priorite_effective wallNow,
    (getPatientD s pid).heure_arrivee)

/-- Non-strict lexicographic comparison of sort keys, the preorder with
respect to which Python's sorted orders the tuples. -/
def cleLe (a b : Int × ℤ) : Bool :=
  a.1 < b.1 ∨ (a.1 = b.1 ∧ a.2 ≤ b.2)

/-- Source method AgentOrchestration.calculer_file_priorite
(lines 281-297): Python's stable sorted() over patients_en_attente with
key (priorite_effective(), heure_arrivee); priorite_effective reads the
wall clock, here the instant `wallNow`. -/
def calculer_file_priorite (s : AgentState) (wallNow : ℤ) : List String :=
  stableSort (fun a b => cleLe (cleFile s wallNow a) (cleFile s wallNow b))
    s.patients_en_attente

/-- Source method AgentOrchestration.selectionner_prochain_patient. -/
def selectionner_prochain_patient (s : AgentState) (wallNow : ℤ) :
    Option String :=
  (calculer_file_priorite s wallNow).head?

/-! ### Consultation -/

/-- Duration lookup performed by demarrer_consultation (lines 310-318):
scan regles_priorite["niveaux"] for the entry whose gravite equals the
patient's severity string; default 5 when the section or the key is
missing. -/
def dureeConsultation (regles : ReglesPriorite) (g : Gravite) : ℕ :=
  match regles.niveaux with
  | none => 5
  | some niveaux =>
    match niveaux.find? (fun n => n.gravite == g.value) with
    | none => 5
    | some n => n.temps_consultation_max.getD 5

inductive ConsultResult where
  | started (pid : String) (duree : ℕ) (fin_prevue : ℤ)
  | docteurOccupe (fin_consultation : Option ℤ)
deriving DecidableEq

/-- Removal of the first occurrence, as Python list.remove (the source
only calls it when the element is present). -/
def eraseFirst (l : List String) (pid : String) : List String :=
  l.erase pid

/-- Source method AgentOrchestration.demarrer_consultation
(lines 301-344).  The end of the consultation is datetime.now() plus the
configured duration: the source reads the wall clock here, modelled by
`wallNow`. -/
def demarrer_consultation (s : AgentState) (pid : String) (wallNow : ℤ) :
    AgentState × ConsultResult :=
  if s.docteur.statut ≠ .DISPONIBLE then
    (s, .docteurOccupe s.docteur.fin_activite)
  else
    let duree := dureeConsultation s.regles_priorite (getPatientD s pid).gravite
    let s1 := { s with docteur :=
      { s.docteur with
          statut := .OCCUPE, patient_en_charge := some pid,
          fin_activite := some (wallNow + duree) } }
    let s2 := updatePatient s1 pid (fun p => { p with statut := .EN_CONSULTATION })
    let s3 := { s2 with patients_en_attente := eraseFirst s2.patients_en_attente pid }
    (s3, .started pid duree (wallNow + duree))

/-! ### Transfer suggestion (AgentOrchestration._suggerer_unite_transfert) -/

inductive PrioriteTransfert where
  | IMMEDIATE | NORMALE
deriving DecidableEq

/-- Result of a suggestion; the free-text justification of the source is
not modelled. -/
structure Suggestion where
  unite : String
  priorite : PrioriteTransfert
  places_disponibles : Option Int := none
deriving DecidableEq

/-- ASCII model of Python str.lower (character-wise lowering). -/
def strLower (s : String) : String := ⟨s.data.map Char.toLower⟩

/-- Inner match of the scan loops (lines 393-395 and 412-414): the unit
matches when some condition tag equals, case-insensitively, some
specialty tag. -/
def uniteCorrespond (maladies : List String) (u : Unite) : Bool :=
  maladies.any (fun patho => (u.specialites.map strLower).contains (strLower patho))

/-- Source method AgentOrchestration._suggerer_unite_transfert
(lines 377-427), with the same fall-through structure: the GRIS rule
fires only when configured; a ROUGE patient without a specialty match
falls back to the rouge rule when configured, otherwise falls through to
the generic scan and default. -/
def suggerer_unite_transfert (s : AgentState) (p : Patient) : Suggestion :=
  match s.regles_speciales.gris with
  | some g =>
    if p.gravite = .GRIS then
      { unite := g.transfert, priorite := .NORMALE }
    else suggererApresGris s p
  | none => suggererApresGris s p
where
  suggererApresGris (s : AgentState) (p : Patient) : Suggestion :=
    if p.gravite = .ROUGE then
      match s.unites.find? (uniteCorrespond p.type_maladie) with
      | some u =>
        { unite := u.nom, priorite := .IMMEDIATE,
          places_disponibles := some ((u.capacite : Int) - u.patients_actuels) }
      | none =>
        match s.regles_speciales.rouge with
        | some r => { unite := r.transfert_prioritaire, priorite := .IMMEDIATE }
        | none => suggererScanGeneral s p
    else suggererScanGeneral s p
  suggererScanGeneral (s : AgentState) (p : Patient) : Suggestion :=
    match s.unites.find? (uniteCorrespond p.type_maladie) with
    | some u =>
      { unite := u.nom, priorite := .NORMALE,
        places_disponibles := some ((u.capacite : Int) - u.patients_actuels) }
    | none => { unite := "ORTHOPÉDIE", priorite := .NORMALE }

/-! ### Transfer (AgentOrchestration.transferer_patient) -/

inductive TransferResult where
  | ok (pid unite : String)
  | introuvable (unite : String)
  | pleine (unite : String)
deriving DecidableEq

/-- Mutation of the unit object found by name: the first unit with this
name gets its occupancy incremented (Unite.accepter_patient). -/
def accepterDansUnite (nom : String) : List Unite → List Unite
  | [] => []
  | u :: rest =>
    if u.nom == nom then { u with patients_actuels := u.patients_actuels + 1 } :: rest
    else u :: accepterDansUnite nom rest

/-- Source method SalleAttente.retirer_patient: remove the first
occurrence when present. -/
def retirerDeSalle (pid : String) (salle : SalleAttente) : SalleAttente :=
  if salle.patients.contains pid then
    { salle with patients := salle.patients.erase pid }
  else salle

/-- Source method AgentOrchestration.transferer_patient (lines 429-469). -/
def transferer_patient (s : AgentState) (pid : String) (unite_nom : String) :
    AgentState × TransferResult :=
  match s.unites.find? (fun u => u.nom == unite_nom) with
  | none => (s, .introuvable unite_nom)
  | some u =>
    if ¬ u.a_de_la_place then (s, .pleine unite_nom)
    else
      let s1 := { s with
        unites := accepterDansUnite unite_nom s.unites,
        patients_transferes := s.patients_transferes ++ [pid] }
      let s2 := { s1 with salles := s1.salles.map (retirerDeSalle pid) }
      let s3 :=
        if s.salles.any (fun sa => sa.patients.contains pid) then
          updatePatient s2 pid (fun p => { p with salle := none })
        else s2
      (s3, .ok pid unite_nom)

/-! ### Orchestration cycle (AgentOrchestration.cycle_orchestration) -/

/-- Action records returned by the cycle, abstracting the human-readable
strings of the source (one constructor per append site). -/
inductive Action where
  | transport (aide_nom pid unite : String)
  | attenteTransport (pid : String)
  | inspection (inf_nom : String) (salle : Int)
  | entreeConsultation (pid : String)
deriving DecidableEq

/-- Truth of `maintenant >= fin_activite` guarded by Python truthiness of
the optional datetime. -/
def finAtteinte (fin : Option ℤ) (maintenant : ℤ) : Bool :=
  match fin with
  | some f => f ≤ maintenant
  | none => false

/-- Step 1 body: release a staff member whose busy period has elapsed
(statut OCCUPE, fin_activite set and reached). -/
def libererSiFini (maintenant : ℤ) (p : Personnel) : Personnel :=
  if p.statut = .OCCUPE ∧ finAtteinte p.fin_activite maintenant then
    { p with statut := .DISPONIBLE, fin_activite := none, patient_en_charge := none }
  else p

/-- Step 2 helper: the first AVAILABLE aide is put BUSY for 15 minutes
holding the patient; returns the rebuilt list and the aide found (as it
was, for the action record). -/
def occuperPremierAide (maintenant : ℤ) (pid : String) :
    List Personnel → List Personnel × Option Personnel
  | [] => ([], none)
  | a :: rest =>
    if a.statut = .DISPONIBLE then
      ({ a with
          statut := .OCCUPE, fin_activite := some (maintenant + 15),
          patient_en_charge := some pid } :: rest, some a)
    else
      let r := occuperPremierAide maintenant pid rest
      (a :: r.1, r.2)

/-- Step 3 helper: the first AVAILABLE nurse is put BUSY for 5 minutes
(her patient_en_charge is not touched by the source). -/
def occuperPremiereInfirmiere (maintenant : ℤ) :
    List Personnel → List Personnel × Option Personnel
  | [] => ([], none)
  | i :: rest =>
    if i.statut = .DISPONIBLE then
      ({ i with statut := .OCCUPE, fin_activite := some (maintenant + 5) } :: rest,
        some i)
    else
      let r := occuperPremiereInfirmiere maintenant rest
      (i :: r.1, r.2)

/-- Lines 495-496: the doctor is freed (statut and patient reference
only; the stale fin_activite is kept, as in the source). -/
def libererDocteur (s : AgentState) : AgentState :=
  { s with docteur :=
    { s.docteur with statut := .DISPONIBLE, patient_en_charge := none } }

/-- Step 2 of the cycle (lines 486-508): end of consultation and start of
transport.  When no aide is free the source only appends the
backpressure record; the doctor keeps its statut, fin_activite and
patient_en_charge. -/
def etape2 (s : AgentState) (maintenant : ℤ) : AgentState × List Action :=
  if s.docteur.statut = .OCCUPE ∧ finAtteinte s.docteur.fin_activite maintenant then
    match s.docteur.patient_en_charge with
    | none => (s, [])
    | some pid =>
      match occuperPremierAide maintenant pid s.aides_soignants with
      | (aides2, some aide) =>
        let s1 := libererDocteur s
        let sug := suggerer_unite_transfert s1 (getPatientD s1 pid)
        let s2 := { s1 with aides_soignants := aides2 }
        let s3 := updatePatient s2 pid (fun p => { p with statut := .TRANSFERE })
        let s4 := (transferer_patient s3 pid sug.unite).1
        (s4, [.transport aide.nom pid sug.unite])
      | (_, none) => (s, [.attenteTransport pid])
  else (s, [])

/-- Step 3 of the cycle (lines 511-518): room surveillance.  Rooms are
scanned in order; the nurse pool is consumed along the way. -/
def etape3 (maintenant : ℤ) :
    List SalleAttente → List Personnel →
      List SalleAttente × List Personnel × List Action
  | [], infs => ([], infs, [])
  | salle :: rest, infs =>
    if 15 ≤ maintenant - salle.derniere_surveillance then
      match occuperPremiereInfirmiere maintenant infs with
      | (infs2, some inf) =>
        let r := etape3 maintenant rest infs2
        ({ salle with derniere_surveillance := maintenant } :: r.1, r.2.1,
          .inspection inf.nom salle.numero :: r.2.2)
      | (_, none) =>
        let r := etape3 maintenant rest infs
        (salle :: r.1, r.2.1, r.2.2)
    else
      let r := etape3 maintenant rest infs
      (salle :: r.1, r.2.1, r.2.2)

/-- Step 4 of the cycle (lines 519-528): new consultation.  The duration
is the literal 5 minutes of the source; patient selection goes through
selectionner_prochain_patient, whose priority keys read the wall clock
(`wallNow`). -/
def etape4 (s : AgentState) (maintenant wallNow : ℤ) : AgentState × List Action :=
  if s.docteur.statut = .DISPONIBLE then
    match selectionner_prochain_patient s wallNow with
    | some pid =>
      let s1 := { s with docteur :=
        { s.docteur with
            statut := .OCCUPE, patient_en_charge := some pid,
            fin_activite := some (maintenant + 5) } }
      let s2 := updatePatient s1 pid (fun p => { p with statut := .EN_CONSULTATION })
      let s3 :=
        if s2.patients_en_attente.contains pid then
          { s2 with patients_en_attente := s2.patients_en_attente.erase pid }
        else s2
      (s3, [.entreeConsultation pid])
    | none => (s, [])
  else (s, [])

/-- Step 1 of the cycle (lines 480-484): release every nurse and aide
whose busy period has elapsed. -/
def etape1 (maintenant : ℤ) (s : AgentState) : AgentState :=
  { s with
      infirmieres := s.infirmieres.map (libererSiFini maintenant),
      aides_soignants := s.aides_soignants.map (libererSiFini maintenant) }

/-- Writing back the rooms and nurses returned by step 3. -/
def avecSallesInfs (s : AgentState) (sal : List SalleAttente)
    (infs : List Personnel) : AgentState :=
  { s with salles := sal, infirmieres := infs }

/-- Source method AgentOrchestration.cycle_orchestration (lines 475-530).
`temps_virtuel` is the optional argument; `wallNow` is the wall clock,
used when temps_virtuel is absent and, through patient selection in step
4, even when it is present. -/
def cycle_orchestration (s : AgentState) (temps_virtuel : Option ℤ)
    (wallNow : ℤ) : AgentState × List Action :=
  let maintenant := temps_virtuel.getD wallNow
  let s1 := etape1 maintenant s
  let r2 := etape2 s1 maintenant
  let r3 := etape3 maintenant r2.1.salles r2.1.infirmieres
  let s3 := avecSallesInfs r2.1 r3.1 r3.2.1
  let r4 := etape4 s3 maintenant wallNow
  (r4.1, r2.2 ++ r3.2.2 ++ r4.2)

/-! ### Derived quantities and repeated-admission driver -/

/-- Total configured room capacity (the capacite_totale field of the
failure payload, line 275). -/
def capaciteTotale (s : AgentState) : ℕ :=
  (s.salles.map (fun sa => sa.capacite)).sum

/-- Total current room occupancy (the occupation_actuelle field of the
failure payload, line 276). -/
def occupationTotale (s : AgentState) : ℕ :=
  (s.salles.map (fun sa => sa.patients.length)).sum

/-- Sequential admission of a list of patients; returns the final state
and the numbers of successes and of SALLE_PLEINE failures. -/
def admettreTous (s : AgentState) : List Patient → AgentState × ℕ × ℕ
  | [] => (s, 0, 0)
  | p :: ps =>
    let r := accueillir_patient s p
    let rest := admettreTous r.1 ps
    match r.2 with
    | .assigned _ => (rest.1, rest.2.1 + 1, rest.2.2)
    | .aucuneSalle _ _ => (rest.1, rest.2.1, rest.2.2 + 1)

/-- All transitions due at `maintenant` have been processed: no staff
release is pending, the doctor is not in an elapsed consultation, no
stale room can be served by an available nurse, and no consultation can
start (an idle doctor has an empty waiting list). -/
def noDueTransitions (s : AgentState) (maintenant : ℤ) : Prop :=
  (∀ p ∈ s.infirmieres ++ s.aides_soignants, libererSiFini maintenant p = p) ∧
  ¬ (s.docteur.statut = .OCCUPE ∧ finAtteinte s.docteur.fin_activite maintenant) ∧
  (∀ salle ∈ s.salles, 15 ≤ maintenant - salle.derniere_surveillance →
    ∀ i ∈ s.infirmieres, i.statut ≠ .DISPONIBLE) ∧
  (s.docteur.statut = .DISPONIBLE → s.patients_en_attente = [])

instance (s : AgentState) (maintenant : ℤ) :
    Decidable (noDueTransitions s maintenant) := by
  unfold noDueTransitions; infer_instance

/-! ### Concrete states used by witnesses and counterexamples -/

def etatVide : AgentState :=
  { salles := [],
    docteur := { id := "docteur_1", nom := "Dr. Urgences", type := "FIXE" },
    infirmieres := [], aides_soignants := [], unites := [],
    patients := [], patients_en_attente := [], patients_consultes := [],
    patients_transferes := [], violations := [],
    regles_priorite := {}, regles_speciales := {} }

/-- A MINOR patient arrived at instant 0, used to exhibit the wall-clock
dependence of the priority computation. -/
def patVert : Patient :=
  { id := "PV", prenom := "Jean", nom := "Martin", gravite := .VERT,
    type_maladie := ["entorse"], heure_arrivee := 0 }

/-- Doctor busy past its end time with no aide anywhere available
(the only aide is still busy until 100, the call is at 50). -/
def etatCexC2 : AgentState :=
  { etatVide with
      docteur := { id := "docteur_1", nom := "Dr. Urgences", type := "FIXE",
                   statut := .OCCUPE, patient_en_charge := some "P1",
                   fin_activite := some 0 },
      aides_soignants := [{ id := "aide_1", nom := "Aide A", type := "MOBILE",
                            statut := .OCCUPE, patient_en_charge := some "PX",
                            fin_activite := some 100 }],
      patients := [{ id := "P1", prenom := "A", nom := "B", gravite := .JAUNE,
                     type_maladie := [], heure_arrivee := 0,
                     statut := .EN_CONSULTATION }] }

/-- Available doctor, one waiting CRITICAL patient, rules configuring a
30-minute consultation for ROUGE. -/
def etatCexC3 : AgentState :=
  { etatVide with
      patients := [{ id := "P2", prenom := "A", nom := "B", gravite := .ROUGE,
                     type_maladie := [], heure_arrivee := 0 }],
      patients_en_attente := ["P2"],
      regles_priorite :=
        { niveaux := some [{ gravite := "ROUGE", temps_consultation_max := some 30 }] } }

/-- Two CRITICAL patients with the same arrival instant, queued with ids
out of alphabetical order. -/
def etatCexC5 : AgentState :=
  { etatVide with
      patients :=
        [{ id := "B", prenom := "A", nom := "B", gravite := .ROUGE,
           type_maladie := [], heure_arrivee := 0 },
         { id := "A", prenom := "C", nom := "D", gravite := .ROUGE,
           type_maladie := [], heure_arrivee := 0 }],
      patients_en_attente := ["B", "A"] }

/-- One empty two-bed room. -/
def etatC7 : AgentState :=
  { etatVide with
      salles := [{ numero := 1, capacite := 2, patients := [],
                   derniere_surveillance := 0 }] }

/-- A patient whose status is already DEPARTED when admitted. -/
def patParti : Patient :=
  { id := "PX", prenom := "E", nom := "F", gravite := .VERT,
    type_maladie := [], heure_arrivee := 0, statut := .PARTI }

/-- Three patients for the capacity-count witness. -/
def patC7a : Patient :=
  { id := "PA", prenom := "A", nom := "A", gravite := .VERT,
    type_maladie := [], heure_arrivee := 0 }

def patC7b : Patient :=
  { id := "PB", prenom := "B", nom := "B", gravite := .JAUNE,
    type_maladie := [], heure_arrivee := 1 }

def patC7c : Patient :=
  { id := "PC", prenom := "C", nom := "C", gravite := .ROUGE,
    type_maladie := [], heure_arrivee := 2 }

/-- One full one-bed unit, for the transfer failure witness. -/
def etatC8 : AgentState :=
  { etatVide with
      unites := [{ nom := "CARDIOLOGIE", capacite := 1, patients_actuels := 1,
                   specialites := ["cardiaque"] }] }

/-- A CRITICAL patient tagged "cardiaque". -/
def patC9 : Patient :=
  { id := "PR", prenom := "G", nom := "H", gravite := .ROUGE,
    type_maladie := ["cardiaque"], heure_arrivee := 0 }

/-- A unit specializing in "cardiaque" (capitalised, to exercise the
case-insensitive match), preceded by a non-matching unit. -/
def etatC9 : AgentState :=
  { etatVide with
      unites := [{ nom := "ORTHO", capacite := 3, specialites := ["fracture"] },
                 { nom := "CARDIOLOGIE", capacite := 2,
                   specialites := ["Cardiaque"] }],
      regles_speciales :=
        { rouge := some { transfert_prioritaire := "SOINS_CRITIQUES",
                          description := "acces immediat" } } }

/-- Same units with different occupancies, for the capacity-blindness
part of C9. -/
def etatC9occ : AgentState :=
  { etatC9 with
      unites := [{ nom := "ORTHO", capacite := 3, patients_actuels := 3,
                   specialites := ["fracture"] },
                 { nom := "CARDIOLOGIE", capacite := 2, patients_actuels := 2,
                   specialites := ["Cardiaque"] }] }

/-- Elapsed consultation of CRITICAL patient "P1" (in room 1), one
available aide, and the suggested unit CARDIOLOGIE already full. -/
def etatC10 : AgentState :=
  { etatVide with
      salles := [{ numero := 1, capacite := 2, patients := ["P1"],
                   derniere_surveillance := 50 }],
      docteur := { id := "docteur_1", nom := "Dr. Urgences", type := "FIXE",
                   statut := .OCCUPE, patient_en_charge := some "P1",
                   fin_activite := some 40 },
      aides_soignants := [{ id := "aide_1", nom := "Aide A", type := "MOBILE" }],
      unites := [{ nom := "CARDIOLOGIE", capacite := 1, patients_actuels := 1,
                   specialites := ["cardiaque"] }],
      patients := [{ id := "P1", prenom := "A", nom := "B", gravite := .ROUGE,
                     type_maladie := ["cardiaque"], heure_arrivee := 0,
                     statut := .EN_CONSULTATION, salle := some 1 }] }

/-! ## Theorems -/

/-! ### Stable sort lemmas -/

theorem stableInsert_perm (le : α → α → Bool) (x : α) (l : List α) :
    List.Perm (stableInsert le x l) (x :: l) := by
  induction l with
  | nil => exact List.Perm.refl _
  | cons y ys ih =>
    unfold stableInsert
    split
    · exact List.Perm.refl _
    · exact (List.Perm.cons y ih).trans (List.Perm.swap x y ys)

theorem stableSort_perm (le : α → α → Bool) (l : List α) :
    List.Perm (stableSort le l) l := by
  induction l with
  | nil => exact List.Perm.refl _
  | cons x xs ih =>
    exact (stableInsert_perm le x (stableSort le xs)).trans (ih.cons x)

theorem stableInsert_pairwise (le : α → α → Bool)
    (letrans : ∀ a b c, le a b → le b c → le a c)
    (total : ∀ a b, le a b ∨ le b a) (x : α) (l : List α)
    (h : l.Pairwise (fun a b => le a b)) :
    (stableInsert le x l).Pairwise (fun a b => le a b) := by
  induction l with
  | nil => simp [stableInsert]
  | cons y ys ih =>
    rcases List.pairwise_cons.mp h with ⟨hy, hys⟩
    unfold stableInsert
    split
    · rename_i hxy
      refine List.pairwise_cons.mpr ⟨?_, h⟩
      intro b hb
      rcases List.mem_cons.mp hb with rfl | hb
      · exact hxy
      · exact letrans x y b hxy (hy b hb)
    · rename_i hxy
      have hyx : le y x := (total x y).resolve_left (by simpa using hxy)
      refine List.pairwise_cons.mpr ⟨?_, ih hys⟩
      intro b hb
      have hb' : b ∈ x :: ys := (stableInsert_perm le x ys).mem_iff.mp hb
      rcases List.mem_cons.mp hb' with rfl | hb'
      · exact hyx
      · exact hy b hb'

theorem stableSort_pairwise (le : α → α → Bool)
    (letrans : ∀ a b c, le a b → le b c → le a c)
    (total : ∀ a b, le a b ∨ le b a) (l : List α) :
    (stableSort le l).Pairwise (fun a b => le a b) := by
  induction l with
  | nil => simp [stableSort]
  | cons x xs ih => exact stableInsert_pairwise le letrans total x _ ih

theorem sublist_stableInsert (le : α → α → Bool) (x : α) (l : List α) :
    List.Sublist l (stableInsert le x l) := by
  induction l with
  | nil => simp [stableInsert]
  | cons y ys ih =>
    unfold stableInsert
    split
    · exact List.sublist_cons_self x (y :: ys)
    · exact List.Sublist.cons₂ y ih

theorem pair_sublist_stableInsert (le : α → α → Bool) (a b : α)
    (hab : le a b) (l : List α) (hb : b ∈ l) :
    List.Sublist [a, b] (stableInsert le a l) := by
  induction l with
  | nil => cases hb
  | cons y ys ih =>
    unfold stableInsert
    split
    · exact List.Sublist.cons₂ a (List.singleton_sublist.mpr hb)
    · rename_i hay
      rcases List.mem_cons.mp hb with rfl | hb
      · exact absurd hab (by simpa using hay)
      · exact List.Sublist.cons y (ih hb)

/-- Pair form of stability: a pair that occurs in order in the input and
whose first component is le the second is still in that order in the
sorted output. -/
theorem pair_sublist_stableSort (le : α → α → Bool)
    (a b : α) (hab : le a b) (l : List α) (h : List.Sublist [a, b] l) :
    List.Sublist [a, b] (stableSort le l) := by
  induction l with
  | nil => cases h
  | cons x xs ih =>
    cases h with
    | cons _ h =>
      exact (ih h).trans (sublist_stableInsert le x _)
    | cons₂ _ h =>
      have hb : b ∈ stableSort le xs :=
        (stableSort_perm le xs).mem_iff.mpr (List.singleton_sublist.mp h)
      exact pair_sublist_stableInsert le a b hab _ hb

/-! ### C1 -/

/-- C1: for every patient and evaluation instant, the effective priority
is an integer in 1..5 and agrees with the claimed table: ROUGE yields 1
regardless of wait, VERT yields 2 exactly when the wait strictly exceeds
360 minutes and 4 otherwise (so wait 360 yields 4, wait 361 yields 2),
JAUNE yields 3 and GRIS yields 5. -/
theorem priorite_effective_spec (p : Patient) (wallNow : ℤ) :
    1 ≤ p.priorite_effective wallNow ∧ p.priorite_effective wallNow ≤ 5 ∧
      p.priorite_effective wallNow =
        claimedPriority p.gravite (p.temps_attente_minutes wallNow) := by
  unfold Patient.priorite_effective claimedPriority
  cases hg : p.gravite
  case ROUGE => simp [hg]
  case JAUNE => simp [hg]
  case VERT => simp [hg]; split <;> norm_num
  case GRIS => simp [hg]

/-! ### Helper lemmas -/

theorem uniteCorrespond_congr (m : List String) (u v : Unite)
    (h : u.specialites = v.specialites) :
    uniteCorrespond m u = uniteCorrespond m v := by
  unfold uniteCorrespond
  rw [h]

/-- Units that agree on names and specialties yield first matches with
the same name. -/
theorem find?_unites_nom (m : List String) {l1 l2 : List Unite}
    (h : List.Forall₂ (fun u v => u.nom = v.nom ∧ u.specialites = v.specialites)
      l1 l2) :
    Option.map Unite.nom (l1.find? (uniteCorrespond m)) =
      Option.map Unite.nom (l2.find? (uniteCorrespond m)) := by
  induction h with
  | nil => rfl
  | cons hd _ ih =>
    rename_i u v l1' l2' _
    rw [List.find?_cons, List.find?_cons, uniteCorrespond_congr m u v hd.2]
    cases uniteCorrespond m v
    · exact ih
    · simp [hd.1]

/-- The suggestion reads only the unit catalog and the special rules of
the agent state. -/
theorem suggerer_congr (s t : AgentState) (p : Patient)
    (hu : s.unites = t.unites) (hr : s.regles_speciales = t.regles_speciales) :
    suggerer_unite_transfert s p = suggerer_unite_transfert t p := by
  unfold suggerer_unite_transfert suggerer_unite_transfert.suggererApresGris
    suggerer_unite_transfert.suggererScanGeneral
  rw [hu, hr]

/-- For a non-GRIS patient the suggestion is the post-GRIS scan. -/
theorem suggerer_non_gris (s : AgentState) (p : Patient)
    (h : p.gravite ≠ .GRIS) :
    suggerer_unite_transfert s p =
      suggerer_unite_transfert.suggererApresGris s p := by
  unfold suggerer_unite_transfert
  cases s.regles_speciales.gris
  · rfl
  · simp [h]

/-! ### C8 -/

/-- C8: transferer_patient against an unknown unit name returns the
UNIT_NOT_FOUND failure, and against a full unit the UNIT_FULL failure;
in both cases the returned state is exactly the input state, so
occupancies, the transferred list and room membership are all unchanged:
the failure is atomic. -/
theorem transfert_echec_atomique (s : AgentState) (pid unite_nom : String) :
    (s.unites.find? (fun u => u.nom == unite_nom) = none →
      transferer_patient s pid unite_nom = (s, .introuvable unite_nom)) ∧
    (∀ u, s.unites.find? (fun v => v.nom == unite_nom) = some u →
      ¬ u.a_de_la_place →
      transferer_patient s pid unite_nom = (s, .pleine unite_nom)) := by
  constructor
  · intro h
    unfold transferer_patient
    rw [h]
  · intro u hu hfull
    unfold transferer_patient
    rw [hu]
    simp [hfull]

/-- Witness for C8: the unit "INCONNUE" does not exist and CARDIOLOGIE is
full in etatC8; both failures leave the state untouched. -/
theorem transfert_echec_atomique_temoin :
    transferer_patient etatC8 "P1" "INCONNUE" = (etatC8, .introuvable "INCONNUE") ∧
    transferer_patient etatC8 "P1" "CARDIOLOGIE" = (etatC8, .pleine "CARDIOLOGIE") :=
  ⟨(transfert_echec_atomique etatC8 "P1" "INCONNUE").1 (by decide),
   (transfert_echec_atomique etatC8 "P1" "CARDIOLOGIE").2
     { nom := "CARDIOLOGIE", capacite := 1, patients_actuels := 1,
       specialites := ["cardiaque"] }
     (by decide) (by decide)⟩

/-! ### C9 -/

/-- C9: for a CRITICAL patient the suggestion scans the transfer units in
configured order and returns the first unit with a case-insensitive
specialty/condition match at priority IMMEDIATE; with no match it
returns the configured critical-care unit at priority IMMEDIATE; and the
chosen unit and priority do not depend on unit occupancies or capacities
(capacity is not consulted). -/
theorem suggestion_rouge_spec (s : AgentState) (p : Patient)
    (hg : p.gravite = .ROUGE) :
    (∀ u, s.unites.find? (uniteCorrespond p.type_maladie) = some u →
      suggerer_unite_transfert s p =
        { unite := u.nom, priorite := .IMMEDIATE,
          places_disponibles := some ((u.capacite : Int) - u.patients_actuels) }) ∧
    (s.unites.find? (uniteCorrespond p.type_maladie) = none →
      ∀ r, s.regles_speciales.rouge = some r →
        suggerer_unite_transfert s p =
          { unite := r.transfert_prioritaire, priorite := .IMMEDIATE,
            places_disponibles := none }) ∧
    (∀ unites2, List.Forall₂
        (fun u v => u.nom = v.nom ∧ u.specialites = v.specialites)
        s.unites unites2 →
      (suggerer_unite_transfert { s with unites := unites2 } p).unite =
        (suggerer_unite_transfert s p).unite ∧
      (suggerer_unite_transfert { s with unites := unites2 } p).priorite =
        (suggerer_unite_transfert s p).priorite) := by
  have hne : p.gravite ≠ .GRIS := by rw [hg]; intro hc; cases hc
  refine ⟨?_, ?_, ?_⟩
  · intro u hu
    rw [suggerer_non_gris s p hne]
    unfold suggerer_unite_transfert.suggererApresGris
    rw [hu]
    simp [hg]
  · intro hnone r hr
    rw [suggerer_non_gris s p hne]
    unfold suggerer_unite_transfert.suggererApresGris
    rw [hnone, hr]
    simp [hg]
  · intro unites2 hrel
    have hnom := find?_unites_nom p.type_maladie hrel
    rw [suggerer_non_gris s p hne,
      suggerer_non_gris { s with unites := unites2 } p hne]
    unfold suggerer_unite_transfert.suggererApresGris
      suggerer_unite_transfert.suggererScanGeneral
    dsimp only
    simp only [hg, if_pos rfl]
    cases h1 : s.unites.find? (uniteCorrespond p.type_maladie) with
    | none =>
      rw [h1] at hnom
      cases h2 : List.find? (uniteCorrespond p.type_maladie) unites2 with
      | none =>
        cases s.regles_speciales.rouge with
        | none => exact ⟨rfl, rfl⟩
        | some r => exact ⟨rfl, rfl⟩
      | some v => rw [h2] at hnom; simp at hnom
    | some u =>
      rw [h1] at hnom
      cases h2 : List.find? (uniteCorrespond p.type_maladie) unites2 with
      | none => rw [h2] at hnom; simp at hnom
      | some v =>
        rw [h2] at hnom
        simp only [Option.map] at hnom
        injection hnom with hnom
        exact ⟨hnom.symm, rfl⟩

/-- Witness for C9: the CRITICAL patient tagged "cardiaque" gets the
CARDIOLOGIE unit (case-insensitive match, skipping the non-matching
ORTHO unit) at priority IMMEDIATE, and the chosen unit is unchanged when
every unit is full. -/
theorem suggestion_rouge_temoin :
    suggerer_unite_transfert etatC9 patC9 =
      { unite := "CARDIOLOGIE", priorite := .IMMEDIATE,
        places_disponibles := some 2 } ∧
    (suggerer_unite_transfert etatC9occ patC9).unite =
      (suggerer_unite_transfert etatC9 patC9).unite := by
  constructor
  · have h := (suggestion_rouge_spec etatC9 patC9 (by decide)).1
      { nom := "CARDIOLOGIE", capacite := 2, patients_actuels := 0,
        specialites := ["Cardiaque"] } (by decide)
    simpa using h
  · exact ((suggestion_rouge_spec etatC9 patC9 (by decide)).2.2 etatC9occ.unites
      (List.Forall₂.cons ⟨rfl, rfl⟩
        (List.Forall₂.cons ⟨rfl, rfl⟩ List.Forall₂.nil))).1

/-! ### C6 -/

/-- Counterexample to C6: the claim says the priority computation never
reads a wall clock internally, so that evaluations on the same patients
yield identical results regardless of when they are executed.  But
Patient.priorite_effective calls Patient.temps_attente_minutes, which
reads datetime.now(): the same MINOR patient evaluates to priority 4
when the wall clock reads 100 and to priority 2 when it reads 500. -/
theorem priorite_depend_horloge :
    patVert.priorite_effective 100 = 4 ∧ patVert.priorite_effective 500 = 2 := by
  decide

/-- C6 (amended): the priority computation reads the wall clock through
temps_attente_minutes; its value is determined by the severity and the
elapsed wall-clock wait alone, so two evaluations (of possibly different
patients) with equal severities and equal elapsed waits agree. -/
theorem priorite_invariante_attente (p q : Patient) (t u : ℤ)
    (hg : p.gravite = q.gravite)
    (hw : t - p.heure_arrivee = u - q.heure_arrivee) :
    p.priorite_effective t = q.priorite_effective u := by
  unfold Patient.priorite_effective Patient.temps_attente_minutes
  rw [hg, hw]

/-- Witness for the amended C6: same severity, arrivals 0 and 50,
evaluation instants 100 and 150 (equal 100-minute waits), equal
priorities. -/
theorem priorite_invariante_attente_temoin :
    patVert.priorite_effective 100 =
      ({ patVert with heure_arrivee := 50 } : Patient).priorite_effective 150 :=
  priorite_invariante_attente _ _ _ _ rfl (by norm_num [patVert])

/-! ### C5 -/

theorem cleLe_trans (a b c : Int × ℤ) (hab : cleLe a b) (hbc : cleLe b c) :
    cleLe a c := by
  simp only [cleLe, decide_eq_true_eq] at hab hbc ⊢
  rcases hab with h | ⟨h1, h2⟩ <;> rcases hbc with h' | ⟨h1', h2'⟩ <;>
    [left; left; left; right] <;> omega

theorem cleLe_total (a b : Int × ℤ) : cleLe a b ∨ cleLe b a := by
  simp only [cleLe, decide_eq_true_eq]
  omega

/-- Counterexample to C5: the claim says remaining ties are broken by
patient id.  In etatCexC5 both queued patients are ROUGE (priority 1)
with the same arrival instant, and they are queued as ["B", "A"]; the
source sort key (priorite_effective(), heure_arrivee) contains no id, so
the stable sort returns ["B", "A"], not the id-ordered ["A", "B"]. -/
theorem file_priorite_pas_triee_par_id :
    calculer_file_priorite etatCexC5 0 = ["B", "A"] ∧
    calculer_file_priorite etatCexC5 0 ≠ ["A", "B"] := by
  constructor
  · decide
  · decide

/-- C5 (amended): calculer_file_priorite returns a permutation of the
waiting list, sorted by the key (effective_priority, arrival) in
non-decreasing lexicographic order, and stably: any pair in queue order
whose first key is less than or equal to the second key keeps its order
in the output.  In particular equal-priority patients are ordered by
arrival, and full-key ties retain queue order; no id tie-break exists. -/
theorem file_priorite_tri_stable (s : AgentState) (wallNow : ℤ) :
    List.Perm (calculer_file_priorite s wallNow) s.patients_en_attente ∧
    (calculer_file_priorite s wallNow).Pairwise
      (fun a b => cleLe (cleFile s wallNow a) (cleFile s wallNow b)) ∧
    (∀ a b, List.Sublist [a, b] s.patients_en_attente →
      cleLe (cleFile s wallNow a) (cleFile s wallNow b) →
      List.Sublist [a, b] (calculer_file_priorite s wallNow)) := by
  refine ⟨stableSort_perm _ _, ?_, ?_⟩
  · exact stableSort_pairwise _
      (fun a b c => cleLe_trans (cleFile s wallNow a) (cleFile s wallNow b)
        (cleFile s wallNow c))
      (fun a b => cleLe_total (cleFile s wallNow a) (cleFile s wallNow b)) _
  · intro a b hsub hle
    exact pair_sublist_stableSort _ a b hle _ hsub

/-- Witness for the amended C5: the equal-key pair ["B", "A"] of
etatCexC5 keeps its queue order in the sorted output. -/
theorem file_priorite_tri_stable_temoin :
    List.Sublist ["B", "A"] (calculer_file_priorite etatCexC5 0) :=
  (file_priorite_tri_stable etatCexC5 0).2.2 "B" "A"
    (List.Sublist.refl _) (by decide)

/-! ### Step-level helper lemmas -/

theorem occuperPremierAide_none (maintenant : ℤ) (pid : String)
    (l : List Personnel) (h : ∀ a ∈ l, a.statut ≠ .DISPONIBLE) :
    occuperPremierAide maintenant pid l = (l, none) := by
  induction l with
  | nil => rfl
  | cons a rest ih =>
    unfold occuperPremierAide
    rw [if_neg (h a (List.mem_cons_self a rest))]
    rw [ih (fun b hb => h b (List.mem_cons_of_mem a hb))]

theorem occuperPremiereInfirmiere_none (maintenant : ℤ)
    (l : List Personnel) (h : ∀ i ∈ l, i.statut ≠ .DISPONIBLE) :
    occuperPremiereInfirmiere maintenant l = (l, none) := by
  induction l with
  | nil => rfl
  | cons i rest ih =>
    unfold occuperPremiereInfirmiere
    rw [if_neg (h i (List.mem_cons_self i rest))]
    rw [ih (fun b hb => h b (List.mem_cons_of_mem i hb))]

theorem calculer_file_ne_nil (s : AgentState) (wallNow : ℤ)
    (h : s.patients_en_attente ≠ []) :
    calculer_file_priorite s wallNow ≠ [] := by
  intro hc
  have hperm := stableSort_perm
    (fun a b => cleLe (cleFile s wallNow a) (cleFile s wallNow b))
    s.patients_en_attente
  unfold calculer_file_priorite at hc
  rw [hc] at hperm
  exact h hperm.symm.eq_nil

theorem selectionner_some (s : AgentState) (wallNow : ℤ)
    (h : s.patients_en_attente ≠ []) :
    ∃ pid, selectionner_prochain_patient s wallNow = some pid := by
  unfold selectionner_prochain_patient
  cases hf : calculer_file_priorite s wallNow with
  | nil => exact absurd hf (calculer_file_ne_nil s wallNow h)
  | cons a l => exact ⟨a, rfl⟩

theorem etape1_docteur (m : ℤ) (s : AgentState) :
    (etape1 m s).docteur = s.docteur := rfl

theorem etape1_salles (m : ℤ) (s : AgentState) :
    (etape1 m s).salles = s.salles := rfl

theorem etape1_patients (m : ℤ) (s : AgentState) :
    (etape1 m s).patients = s.patients := rfl

theorem etape1_attente (m : ℤ) (s : AgentState) :
    (etape1 m s).patients_en_attente = s.patients_en_attente := rfl

theorem etape1_unites (m : ℤ) (s : AgentState) :
    (etape1 m s).unites = s.unites := rfl

theorem etape1_transferes (m : ℤ) (s : AgentState) :
    (etape1 m s).patients_transferes = s.patients_transferes := rfl

theorem etape1_infirmieres (m : ℤ) (s : AgentState) :
    (etape1 m s).infirmieres = s.infirmieres.map (libererSiFini m) := rfl

theorem etape1_aides (m : ℤ) (s : AgentState) :
    (etape1 m s).aides_soignants = s.aides_soignants.map (libererSiFini m) := rfl

theorem avecSallesInfs_docteur (s : AgentState) (sal : List SalleAttente)
    (infs : List Personnel) : (avecSallesInfs s sal infs).docteur = s.docteur := rfl

theorem avecSallesInfs_patients (s : AgentState) (sal : List SalleAttente)
    (infs : List Personnel) : (avecSallesInfs s sal infs).patients = s.patients := rfl

theorem avecSallesInfs_attente (s : AgentState) (sal : List SalleAttente)
    (infs : List Personnel) :
    (avecSallesInfs s sal infs).patients_en_attente = s.patients_en_attente := rfl

theorem avecSallesInfs_unites (s : AgentState) (sal : List SalleAttente)
    (infs : List Personnel) : (avecSallesInfs s sal infs).unites = s.unites := rfl

theorem avecSallesInfs_transferes (s : AgentState) (sal : List SalleAttente)
    (infs : List Personnel) :
    (avecSallesInfs s sal infs).patients_transferes = s.patients_transferes := rfl

theorem avecSallesInfs_aides (s : AgentState) (sal : List SalleAttente)
    (infs : List Personnel) :
    (avecSallesInfs s sal infs).aides_soignants = s.aides_soignants := rfl

theorem avecSallesInfs_salles (s : AgentState) (sal : List SalleAttente)
    (infs : List Personnel) : (avecSallesInfs s sal infs).salles = sal := rfl

theorem updatePatient_docteur (s : AgentState) (pid : String)
    (f : Patient → Patient) : (updatePatient s pid f).docteur = s.docteur := rfl

theorem updatePatient_salles (s : AgentState) (pid : String)
    (f : Patient → Patient) : (updatePatient s pid f).salles = s.salles := rfl

theorem updatePatient_unites (s : AgentState) (pid : String)
    (f : Patient → Patient) : (updatePatient s pid f).unites = s.unites := rfl

theorem updatePatient_transferes (s : AgentState) (pid : String)
    (f : Patient → Patient) :
    (updatePatient s pid f).patients_transferes = s.patients_transferes := rfl

theorem updatePatient_attente (s : AgentState) (pid : String)
    (f : Patient → Patient) :
    (updatePatient s pid f).patients_en_attente = s.patients_en_attente := rfl

theorem updatePatient_aides (s : AgentState) (pid : String)
    (f : Patient → Patient) :
    (updatePatient s pid f).aides_soignants = s.aides_soignants := rfl

/-- Step 2 when the guard does not fire. -/
theorem etape2_sans_fin (s : AgentState) (now : ℤ)
    (h : ¬ (s.docteur.statut = .OCCUPE ∧
      finAtteinte s.docteur.fin_activite now = true)) :
    etape2 s now = (s, []) := by
  unfold etape2
  rw [if_neg h]

/-- Step 2 when the consultation has elapsed but no aide is AVAILABLE:
the state is returned untouched with the backpressure record. -/
theorem etape2_pas_aide (s : AgentState) (now : ℤ) (pid : String)
    (h1 : s.docteur.statut = .OCCUPE)
    (h2 : finAtteinte s.docteur.fin_activite now = true)
    (h3 : s.docteur.patient_en_charge = some pid)
    (h4 : ∀ a ∈ s.aides_soignants, a.statut ≠ .DISPONIBLE) :
    etape2 s now = (s, [.attenteTransport pid]) := by
  unfold etape2
  rw [if_pos (show s.docteur.statut = .OCCUPE ∧
      finAtteinte s.docteur.fin_activite now = true from ⟨h1, h2⟩), h3]
  dsimp only
  rw [occuperPremierAide_none now pid _ h4]

/-- Step 4 when the doctor is not AVAILABLE. -/
theorem etape4_pas_disponible (s : AgentState) (m wc : ℤ)
    (h : ¬ s.docteur.statut = .DISPONIBLE) :
    etape4 s m wc = (s, []) := by
  unfold etape4
  rw [if_neg h]

/-- Step 4 with an available doctor and a nonempty waiting set: the
doctor goes BUSY until m + 5 (the hard-coded tick duration). -/
theorem etape4_fin_5 (s : AgentState) (m wc : ℤ)
    (h1 : s.docteur.statut = .DISPONIBLE)
    (h2 : s.patients_en_attente ≠ []) :
    (etape4 s m wc).1.docteur.statut = .OCCUPE ∧
    (etape4 s m wc).1.docteur.fin_activite = some (m + 5) := by
  obtain ⟨pid, hsel⟩ := selectionner_some s wc h2
  unfold etape4
  rw [if_pos h1, hsel]
  dsimp only
  split
  · exact ⟨by simp [updatePatient_docteur], by simp [updatePatient_docteur]⟩
  · exact ⟨by simp [updatePatient_docteur], by simp [updatePatient_docteur]⟩

/-! ### C2 -/

/-- Counterexample to C2: in etatCexC2 the doctor is BUSY past its end
time and no aide is AVAILABLE; the claim says the doctor's patient
reference is freed anyway and the doctor becomes idle, but after the
tick the doctor is still BUSY and still holds the patient, with only the
backpressure record emitted. -/
theorem backpressure_docteur_cex :
    (cycle_orchestration etatCexC2 (some 50) 50).1.docteur.statut = .OCCUPE ∧
    (cycle_orchestration etatCexC2 (some 50) 50).1.docteur.patient_en_charge =
      some "P1" ∧
    (cycle_orchestration etatCexC2 (some 50) 50).2 =
      [.attenteTransport "P1"] := by
  decide

/-- C2 (amended): in tick step 2, when the doctor is BUSY with its end
time reached and no aide is AVAILABLE after the step-1 releases, the
doctor is left entirely unchanged (still BUSY, still holding the patient
reference), the patient heap and the waiting set are unchanged, and the
backpressure action record is emitted. -/
theorem backpressure_docteur_reste_occupe (s : AgentState) (now wc : ℤ)
    (pid : String)
    (h1 : s.docteur.statut = .OCCUPE)
    (h2 : finAtteinte s.docteur.fin_activite now = true)
    (h3 : s.docteur.patient_en_charge = some pid)
    (h4 : ∀ a ∈ s.aides_soignants, (libererSiFini now a).statut ≠ .DISPONIBLE) :
    (cycle_orchestration s (some now) wc).1.docteur = s.docteur ∧
    (cycle_orchestration s (some now) wc).1.patients = s.patients ∧
    (cycle_orchestration s (some now) wc).1.patients_en_attente =
      s.patients_en_attente ∧
    Action.attenteTransport pid ∈ (cycle_orchestration s (some now) wc).2 := by
  have hmap : ∀ a ∈ (etape1 now s).aides_soignants,
      a.statut ≠ .DISPONIBLE := by
    rw [etape1_aides]
    intro a ha
    rcases List.mem_map.mp ha with ⟨b, hb, rfl⟩
    exact h4 b hb
  unfold cycle_orchestration
  simp only [Option.getD_some]
  rw [etape2_pas_aide (etape1 now s) now pid
    (by rw [etape1_docteur]; exact h1)
    (by rw [etape1_docteur]; exact h2)
    (by rw [etape1_docteur]; exact h3) hmap]
  dsimp only
  rw [etape4_pas_disponible _ now wc
    (by rw [avecSallesInfs_docteur, etape1_docteur, h1]; decide)]
  dsimp only
  refine ⟨?_, ?_, ?_, ?_⟩
  · rw [avecSallesInfs_docteur, etape1_docteur]
  · rw [avecSallesInfs_patients, etape1_patients]
  · rw [avecSallesInfs_attente, etape1_attente]
  · exact List.mem_append_left _ (List.mem_append_left _ (List.mem_cons_self _ _))

/-- Witness for the amended C2 at the concrete state etatCexC2. -/
theorem backpressure_docteur_reste_occupe_temoin :
    (cycle_orchestration etatCexC2 (some 50) 50).1.docteur =
      etatCexC2.docteur ∧
    Action.attenteTransport "P1" ∈ (cycle_orchestration etatCexC2 (some 50) 50).2 := by
  have h := backpressure_docteur_reste_occupe etatCexC2 50 50 "P1"
    (by decide) (by decide) (by decide) (by decide)
  exact ⟨h.1, h.2.2.2⟩

/-! ### C3 -/

/-- Counterexample to C3: in etatCexC3 the RuleProvider configures a
30-minute consultation for ROUGE and the selected patient is ROUGE, yet
tick step 4 puts the doctor BUSY until now + 5: the per-severity
duration is not consulted by the tick. -/
theorem tick_ignore_regles_cex :
    (cycle_orchestration etatCexC3 (some 0) 0).1.docteur.fin_activite = some 5 ∧
    dureeConsultation etatCexC3.regles_priorite Gravite.ROUGE = 30 := by
  decide

/-- C3 (amended): when tick step 4 starts a consultation it always puts
the doctor BUSY with end time now + 5 (the hard-coded literal of
cycle_orchestration), regardless of the RuleProvider rules; the
per-severity duration with 5-minute fallback is used only by the
separate demarrer_consultation operation, whose end time is the wall
clock plus that duration. -/
theorem tick_duree_fixe_5 (s t : AgentState) (now wc wallNow : ℤ)
    (pid : String)
    (h1 : s.docteur.statut = .DISPONIBLE)
    (h2 : s.patients_en_attente ≠ [])
    (h3 : t.docteur.statut = .DISPONIBLE) :
    ((cycle_orchestration s (some now) wc).1.docteur.statut = .OCCUPE ∧
     (cycle_orchestration s (some now) wc).1.docteur.fin_activite =
       some (now + 5)) ∧
    (demarrer_consultation t pid wallNow).1.docteur.fin_activite =
      some (wallNow +
        (dureeConsultation t.regles_priorite (getPatientD t pid).gravite : ℤ)) := by
  constructor
  · unfold cycle_orchestration
    simp only [Option.getD_some]
    rw [etape2_sans_fin (etape1 now s) now
      (by rw [etape1_docteur, h1]; simp)]
    dsimp only
    exact etape4_fin_5 _ now wc
      (by rw [avecSallesInfs_docteur, etape1_docteur]; exact h1)
      (by rw [avecSallesInfs_attente, etape1_attente]; exact h2)
  · unfold demarrer_consultation
    rw [if_neg (fun hc => hc h3)]
    dsimp only
    rw [updatePatient_docteur]

/-- Witness for the amended C3 at etatCexC3 (fixed 5-minute tick end
time, 30-minute demarrer_consultation end time from the rules). -/
theorem tick_duree_fixe_5_temoin :
    ((cycle_orchestration etatCexC3 (some 0) 0).1.docteur.statut = .OCCUPE ∧
     (cycle_orchestration etatCexC3 (some 0) 0).1.docteur.fin_activite =
       some 5) ∧
    (demarrer_consultation etatCexC3 "P2" 0).1.docteur.fin_activite =
      some 30 := by
  have h := tick_duree_fixe_5 etatCexC3 etatCexC3 0 0 0 "P2"
    (by decide) (by decide) (by decide)
  simpa using h

/-! ### C7 -/

theorem placer_none_iff (pid : String) : ∀ salles : List SalleAttente,
    placerDansPremiereSalle pid salles = none ↔
    ∀ sa ∈ salles, ¬ sa.patients.length < sa.capacite := by
  intro salles
  induction salles with
  | nil => simp [placerDansPremiereSalle]
  | cons salle rest ih =>
    unfold placerDansPremiereSalle
    by_cases h : salle.patients.length < salle.capacite
    · rw [if_pos h]
      simp only [reduceCtorEq, false_iff]
      intro hall
      exact hall salle (List.mem_cons_self _ _) h
    · rw [if_neg h]
      cases hr : placerDansPremiereSalle pid rest with
      | some pr =>
        obtain ⟨rest2, n2⟩ := pr
        dsimp only
        constructor
        · intro hc; cases hc
        · intro hall
          have hn := ih.mpr (fun sa hsa => hall sa (List.mem_cons_of_mem _ hsa))
          rw [hr] at hn
          cases hn
      | none =>
        dsimp only
        constructor
        · intro _ sa hsa
          rcases List.mem_cons.mp hsa with rfl | hsa
          · exact h
          · exact (ih.mp hr) sa hsa
        · intro _; rfl

theorem placer_some_sums (pid : String) : ∀ salles salles2 : List SalleAttente,
    ∀ n : Int, placerDansPremiereSalle pid salles = some (salles2, n) →
    (salles2.map (fun sa => sa.patients.length)).sum =
      (salles.map (fun sa => sa.patients.length)).sum + 1 ∧
    salles2.map (fun sa => sa.capacite) = salles.map (fun sa => sa.capacite) ∧
    ((∀ sa ∈ salles, sa.patients.length ≤ sa.capacite) →
      ∀ sa ∈ salles2, sa.patients.length ≤ sa.capacite) := by
  intro salles
  induction salles with
  | nil => intro salles2 n h; cases h
  | cons salle rest ih =>
    intro salles2 n h
    unfold placerDansPremiereSalle at h
    by_cases hlt : salle.patients.length < salle.capacite
    · rw [if_pos hlt] at h
      injection h with h
      injection h with h1 h2
      rw [← h1]
      refine ⟨by simp; omega, by simp, ?_⟩
      intro hle sa hsa
      rcases List.mem_cons.mp hsa with rfl | hsa
      · simp; omega
      · exact hle sa (List.mem_cons_of_mem _ hsa)
    · rw [if_neg hlt] at h
      cases hr : placerDansPremiereSalle pid rest with
      | none => rw [hr] at h; cases h
      | some pr =>
        obtain ⟨rest2, n2⟩ := pr
        rw [hr] at h
        injection h with h
        injection h with h1 h2
        rw [← h1]
        obtain ⟨hsum, hcap, hpoint⟩ := ih rest2 n2 hr
        refine ⟨by simp [hsum]; omega, by simp [hcap], ?_⟩
        intro hle sa hsa
        rcases List.mem_cons.mp hsa with rfl | hsa
        · exact hle sa (List.mem_cons_self _ _)
        · exact hpoint (fun x hx => hle x (List.mem_cons_of_mem _ hx)) sa hsa

theorem placer_of_find (pid : String) : ∀ salles : List SalleAttente, ∀ salle,
    salles.find? (fun sa => decide sa.a_de_la_place) = some salle →
    ∃ salles2, placerDansPremiereSalle pid salles = some (salles2, salle.numero) := by
  intro salles
  induction salles with
  | nil => intro salle h; cases h
  | cons a rest ih =>
    intro salle h
    rw [List.find?_cons] at h
    unfold placerDansPremiereSalle
    by_cases ha : a.a_de_la_place
    · rw [if_pos (by simpa [SalleAttente.a_de_la_place] using ha)]
      simp only [decide_eq_true ha] at h
      injection h with h
      rw [← h]
      exact ⟨_, rfl⟩
    · rw [if_neg (by simpa [SalleAttente.a_de_la_place] using ha)]
      simp only [decide_eq_false ha] at h
      obtain ⟨rest2, hrest⟩ := ih salle h
      rw [hrest]
      exact ⟨_, rfl⟩

theorem somme_occupation_lt (l : List SalleAttente)
    (hle : ∀ sa ∈ l, sa.patients.length ≤ sa.capacite)
    (sa0 : SalleAttente) (h0 : sa0 ∈ l)
    (hlt : sa0.patients.length < sa0.capacite) :
    (l.map (fun sa => sa.patients.length)).sum <
      (l.map (fun sa => sa.capacite)).sum := by
  induction l with
  | nil => cases h0
  | cons a rest ih =>
    simp only [List.map_cons, List.sum_cons]
    rcases List.mem_cons.mp h0 with rfl | h0
    · have hrest : (rest.map (fun sa => sa.patients.length)).sum ≤
          (rest.map (fun sa => sa.capacite)).sum :=
        List.sum_le_sum (fun sa hsa => hle sa (List.mem_cons_of_mem _ hsa))
      omega
    · have halt : a.patients.length ≤ a.capacite := hle a (List.mem_cons_self _ _)
      have := ih (fun sa hsa => hle sa (List.mem_cons_of_mem _ hsa)) h0
      omega

/-- Counting lemma: starting from rooms that respect their capacities,
admitting a list of patients yields min(free capacity, list length)
successes, the rest being SALLE_PLEINE failures. -/
theorem admettreTous_compte (ps : List Patient) : ∀ s : AgentState,
    (∀ sa ∈ s.salles, sa.patients.length ≤ sa.capacite) →
    (admettreTous s ps).2.1 =
      min (capaciteTotale s - occupationTotale s) ps.length ∧
    (admettreTous s ps).2.2 =
      ps.length - min (capaciteTotale s - occupationTotale s) ps.length := by
  induction ps with
  | nil => intro s h; simp [admettreTous]
  | cons p ps ih =>
    intro s h
    unfold admettreTous accueillir_patient
    cases hp : placerDansPremiereSalle p.id s.salles with
    | some pr =>
      obtain ⟨salles2, n⟩ := pr
      dsimp only
      obtain ⟨hsum, hcap, hpoint⟩ := placer_some_sums p.id s.salles salles2 n hp
      have hocclt : occupationTotale s < capaciteTotale s := by
        have hnot : ¬ ∀ sa ∈ s.salles, ¬ sa.patients.length < sa.capacite := by
          rw [← placer_none_iff p.id]
          simp [hp]
        push_neg at hnot
        obtain ⟨sa0, h0, hlt⟩ := hnot
        exact somme_occupation_lt s.salles h sa0 h0 (by omega)
      have ihs := ih
        { s with
            salles := salles2,
            patients := s.patients ++ [{ p with salle := some n }],
            patients_en_attente := s.patients_en_attente ++ [p.id] }
        (hpoint h)
      unfold capaciteTotale occupationTotale at ihs hocclt ⊢
      dsimp only at ihs ⊢
      rw [hsum, hcap] at ihs
      rw [ihs.1, ihs.2]
      simp only [List.length_cons]
      omega
    | none =>
      dsimp only
      have hfull : ∀ sa ∈ s.salles, ¬ sa.patients.length < sa.capacite :=
        (placer_none_iff p.id s.salles).mp hp
      have hge : (s.salles.map (fun sa => sa.capacite)).sum ≤
          (s.salles.map (fun sa => sa.patients.length)).sum :=
        List.sum_le_sum (fun sa hsa => by have := hfull sa hsa; omega)
      have ihs := ih { s with violations := s.violations ++ [p.id] } h
      unfold capaciteTotale occupationTotale at ihs ⊢
      dsimp only at ihs ⊢
      rw [ihs.1, ihs.2]
      simp only [List.length_cons]
      omega

/-- Counterexample to C7: the claim says admit marks the patient WAITING.
accueillir_patient never writes the status field: admitting a patient
whose status is PARTI succeeds (room assigned, patient queued) yet the
stored patient still has status PARTI, not EN_ATTENTE. -/
theorem accueil_ne_marque_pas_attente_cex :
    (accueillir_patient etatC7 patParti).2 = .assigned 1 ∧
    lookupPatient (accueillir_patient etatC7 patParti).1 "PX" =
      some { patParti with salle := some 1 } ∧
    patParti.statut = .PARTI := by
  decide

/-- C7 (amended): accueillir_patient scans rooms in configured order and
assigns the patient to the first room with spare capacity, appending it
to the waiting set and leaving its status field unchanged (fresh
patients are WAITING by construction, but admit itself never writes the
status); with no room available it fails with SALLE_PLEINE, recording
only the violation, without queueing the patient; and admitting C+1
patients into C total empty capacity yields exactly C successes and
exactly 1 failure, regardless of submission order. -/
theorem accueil_premier_fit (s : AgentState) (pat : Patient) :
    (∀ salle, s.salles.find? (fun sa => decide sa.a_de_la_place) = some salle →
      (accueillir_patient s pat).2 = .assigned salle.numero ∧
      (accueillir_patient s pat).1.patients =
        s.patients ++ [{ pat with salle := some salle.numero }] ∧
      (accueillir_patient s pat).1.patients_en_attente =
        s.patients_en_attente ++ [pat.id]) ∧
    (s.salles.find? (fun sa => decide sa.a_de_la_place) = none →
      accueillir_patient s pat =
        ({ s with violations := s.violations ++ [pat.id] },
          .aucuneSalle (capaciteTotale s) (occupationTotale s))) ∧
    (∀ ps : List Patient, (∀ sa ∈ s.salles, sa.patients = []) →
      ps.length = capaciteTotale s + 1 →
      (admettreTous s ps).2.1 = capaciteTotale s ∧
      (admettreTous s ps).2.2 = 1) := by
  refine ⟨?_, ?_, ?_⟩
  · intro salle hfind
    obtain ⟨salles2, hplace⟩ := placer_of_find pat.id s.salles salle hfind
    unfold accueillir_patient
    rw [hplace]
    exact ⟨rfl, rfl, rfl⟩
  · intro hfind
    have hplace : placerDansPremiereSalle pat.id s.salles = none := by
      rw [placer_none_iff]
      intro sa hsa
      have := List.find?_eq_none.mp hfind sa hsa
      simpa [SalleAttente.a_de_la_place] using this
    unfold accueillir_patient
    rw [hplace]
    rfl
  · intro ps hvide hlen
    have hocc : occupationTotale s = 0 := by
      unfold occupationTotale
      apply List.sum_eq_zero
      intro x hx
      rcases List.mem_map.mp hx with ⟨sa, hsa, rfl⟩
      rw [hvide sa hsa]
      rfl
    have hle : ∀ sa ∈ s.salles, sa.patients.length ≤ sa.capacite := by
      intro sa hsa
      rw [hvide sa hsa]
      simp
    obtain ⟨h1, h2⟩ := admettreTous_compte ps s hle
    rw [h1, h2, hocc, hlen]
    omega

/-- Witness for the amended C7: one empty room of capacity 2; the first
admission is assigned to room 1, and admitting three patients yields
exactly 2 successes and 1 failure. -/
theorem accueil_premier_fit_temoin :
    (accueillir_patient etatC7 patC7a).2 = .assigned 1 ∧
    (admettreTous etatC7 [patC7a, patC7b, patC7c]).2.1 = 2 ∧
    (admettreTous etatC7 [patC7a, patC7b, patC7c]).2.2 = 1 := by
  refine ⟨?_, ?_, ?_⟩
  · exact ((accueil_premier_fit etatC7 patC7a).1
      { numero := 1, capacite := 2, patients := [], derniere_surveillance := 0 }
      (by decide)).1
  · exact ((accueil_premier_fit etatC7 patC7a).2.2 [patC7a, patC7b, patC7c]
      (by decide) (by decide)).1
  · exact ((accueil_premier_fit etatC7 patC7a).2.2 [patC7a, patC7b, patC7c]
      (by decide) (by decide)).2

/-! ### Heap-lookup lemmas -/

theorem getPatientD_congr (s t : AgentState) (pid : String)
    (h : s.patients = t.patients) : getPatientD s pid = getPatientD t pid := by
  unfold getPatientD lookupPatient
  rw [h]

theorem find?_id_map (g : Patient → Patient) (hg : ∀ p, (g p).id = p.id)
    (pid : String) : ∀ l : List Patient,
    (l.map g).find? (fun p => p.id == pid) =
      Option.map g (l.find? (fun p => p.id == pid)) := by
  intro l
  induction l with
  | nil => rfl
  | cons x rest ih =>
    simp only [List.map_cons]
    by_cases hx : x.id = pid
    · rw [List.find?_cons_of_pos _ (by simp [hg, hx]),
        List.find?_cons_of_pos _ (by simp [hx])]
      rfl
    · rw [List.find?_cons_of_neg _ (by simp [hg, hx]),
        List.find?_cons_of_neg _ (by simp [hx])]
      exact ih

theorem lookupPatient_updatePatient (s : AgentState) (q pid : String)
    (f : Patient → Patient) (hf : ∀ p, (f p).id = p.id) :
    lookupPatient (updatePatient s q f) pid =
      Option.map (fun p => if p.id == q then f p else p) (lookupPatient s pid) := by
  unfold lookupPatient updatePatient
  exact find?_id_map _
    (fun p => by
      by_cases h : (p.id == q) = true
      · simp [h, hf p]
      · simp [h])
    pid s.patients

/-- Updating a patient distinct from the one looked up changes nothing. -/
theorem lookupPatient_update_autre (s : AgentState) (q pid : String)
    (f : Patient → Patient) (hf : ∀ p, (f p).id = p.id) (hne : q ≠ pid) :
    lookupPatient (updatePatient s q f) pid = lookupPatient s pid := by
  rw [lookupPatient_updatePatient s q pid f hf]
  cases hl : lookupPatient s pid with
  | none => rfl
  | some p1 =>
    unfold lookupPatient at hl
    have hid := List.find?_some hl
    simp only [beq_iff_eq] at hid
    have hq : (pid == q) = false := beq_eq_false_iff_ne.mpr (fun hc => hne hc.symm)
    simp [Option.map, hid, hq]

/-- Looking up the updated patient sees the update. -/
theorem lookupPatient_update_self (s : AgentState) (q : String)
    (p0 : Patient) (f : Patient → Patient)
    (hf : ∀ p, (f p).id = p.id) (hp0 : lookupPatient s q = some p0) :
    lookupPatient (updatePatient s q f) q = some (f p0) := by
  rw [lookupPatient_updatePatient s q q f hf, hp0]
  have hp0f : List.find? (fun p => p.id == q) s.patients = some p0 := hp0
  have hid := List.find?_some hp0f
  simp only [beq_iff_eq] at hid
  simp [Option.map, hid]

/-! ### Step frame lemmas -/

theorem occuperPremierAide_some (now : ℤ) (pid : String) :
    ∀ l : List Personnel, ∀ a : Personnel,
    (occuperPremierAide now pid l).2 = some a →
    { a with
        statut := .OCCUPE, fin_activite := some (now + 15),
        patient_en_charge := some pid } ∈ (occuperPremierAide now pid l).1 := by
  intro l
  induction l with
  | nil => intro a h; cases h
  | cons x rest ih =>
    intro a h
    unfold occuperPremierAide at h ⊢
    by_cases hx : x.statut = .DISPONIBLE
    · rw [if_pos hx] at h ⊢
      dsimp only at h ⊢
      injection h with h
      rw [← h]
      exact List.mem_cons_self _ _
    · rw [if_neg hx] at h ⊢
      dsimp only at h ⊢
      exact List.mem_cons_of_mem _ (ih a h)

/-- Step 3 never changes the patient lists of the rooms (only the
inspection timestamps and the nurse pool). -/
theorem etape3_salles_patients (m : ℤ) :
    ∀ (salles : List SalleAttente) (infs : List Personnel),
    (etape3 m salles infs).1.map (fun sa => sa.patients) =
      salles.map (fun sa => sa.patients) := by
  intro salles
  induction salles with
  | nil => intro infs; rfl
  | cons salle rest ih =>
    intro infs
    unfold etape3
    by_cases hs : 15 ≤ m - salle.derniere_surveillance
    · rw [if_pos hs]
      cases hocc : occuperPremiereInfirmiere m infs with
      | mk infs2 opt =>
        cases opt with
        | none => dsimp only; simp [ih]
        | some inf => dsimp only; simp [ih]
    · rw [if_neg hs]
      dsimp only
      simp [ih]

theorem selectionner_mem (s : AgentState) (wc : ℤ) (q : String)
    (h : selectionner_prochain_patient s wc = some q) :
    q ∈ s.patients_en_attente := by
  unfold selectionner_prochain_patient at h
  have hq : q ∈ calculer_file_priorite s wc := by
    cases hf : calculer_file_priorite s wc with
    | nil => rw [hf] at h; cases h
    | cons a l =>
      rw [hf] at h
      injection h with h
      rw [← h]
      exact List.mem_cons_self _ _
  unfold calculer_file_priorite at hq
  exact (stableSort_perm _ _).mem_iff.mp hq

/-- Step 4 leaves units, the transferred list, the rooms and the aides
untouched, and does not modify the heap entry of a patient that is not
in the waiting set. -/
theorem etape4_frame (s : AgentState) (m wc : ℤ) (pid : String)
    (hpid : pid ∉ s.patients_en_attente) :
    (etape4 s m wc).1.unites = s.unites ∧
    (etape4 s m wc).1.patients_transferes = s.patients_transferes ∧
    (etape4 s m wc).1.salles = s.salles ∧
    (etape4 s m wc).1.aides_soignants = s.aides_soignants ∧
    lookupPatient (etape4 s m wc).1 pid = lookupPatient s pid := by
  unfold etape4
  by_cases hd : s.docteur.statut = .DISPONIBLE
  · rw [if_pos hd]
    cases hsel : selectionner_prochain_patient s wc with
    | none => exact ⟨rfl, rfl, rfl, rfl, rfl⟩
    | some q =>
      have hq : q ∈ s.patients_en_attente := selectionner_mem s wc q hsel
      have hne : q ≠ pid := fun hc => hpid (hc ▸ hq)
      dsimp only
      split
      · exact ⟨rfl, rfl, rfl, rfl,
          lookupPatient_update_autre _ q pid _ (fun p => rfl) hne⟩
      · exact ⟨rfl, rfl, rfl, rfl,
          lookupPatient_update_autre _ q pid _ (fun p => rfl) hne⟩
  · rw [if_neg hd]
    exact ⟨rfl, rfl, rfl, rfl, rfl⟩

/-! ### C10 -/

/-- Step 2 when an aide is found but the suggested unit is full: the
transfer commit fails and its result is ignored; the patient is still
marked TRANSFERE and the aide still departs for 15 minutes. -/
theorem etape2_aide_pleine (s : AgentState) (now : ℤ) (pid : String)
    (p0 : Patient) (aide : Personnel) (uFull : Unite)
    (h1 : s.docteur.statut = .OCCUPE)
    (h2 : finAtteinte s.docteur.fin_activite now = true)
    (h3 : s.docteur.patient_en_charge = some pid)
    (hocc : (occuperPremierAide now pid s.aides_soignants).2 = some aide)
    (hp0 : lookupPatient s pid = some p0)
    (hu : s.unites.find? (fun v => v.nom ==
        (suggerer_unite_transfert s p0).unite) = some uFull)
    (hfull : ¬ uFull.a_de_la_place) :
    (etape2 s now).1.unites = s.unites ∧
    (etape2 s now).1.patients_transferes = s.patients_transferes ∧
    (etape2 s now).1.salles = s.salles ∧
    (etape2 s now).1.patients_en_attente = s.patients_en_attente ∧
    (etape2 s now).1.docteur.statut = .DISPONIBLE ∧
    lookupPatient (etape2 s now).1 pid = some { p0 with statut := .TRANSFERE } ∧
    { aide with
        statut := .OCCUPE, fin_activite := some (now + 15),
        patient_en_charge := some pid } ∈ (etape2 s now).1.aides_soignants ∧
    (etape2 s now).2 =
      [.transport aide.nom pid (suggerer_unite_transfert s p0).unite] := by
  unfold etape2
  rw [if_pos (show s.docteur.statut = .OCCUPE ∧
      finAtteinte s.docteur.fin_activite now = true from ⟨h1, h2⟩), h3]
  dsimp only
  cases hpair : occuperPremierAide now pid s.aides_soignants with
  | mk aides2 opt =>
    rw [hpair] at hocc
    dsimp only at hocc
    subst hocc
    dsimp only
    rw [getPatientD_congr (libererDocteur s) s pid rfl]
    have hgs : getPatientD s pid = p0 := by
      unfold getPatientD
      rw [hp0]
      rfl
    rw [hgs, suggerer_congr (libererDocteur s) s p0 rfl rfl]
    rw [(transfert_echec_atomique
      (updatePatient { libererDocteur s with aides_soignants := aides2 } pid
        (fun p => { p with statut := .TRANSFERE }))
      pid (suggerer_unite_transfert s p0).unite).2 uFull hu hfull]
    have hmem := occuperPremierAide_some now pid s.aides_soignants aide
      (by rw [hpair])
    rw [hpair] at hmem
    dsimp only at hmem
    exact ⟨rfl, rfl, rfl, rfl, rfl,
      lookupPatient_update_self _ pid p0 _ (fun p => rfl) hp0, hmem, rfl⟩

/-- C10: in tick step 2, when the consultation has ended, an aide is
available, and the suggested unit is already full, the transfer-commit
result is ignored: the patient is marked TRANSFERE (its room field
untouched), the aide is put BUSY for 15 minutes holding the patient,
unit occupancies are unchanged, the patient is not appended to the
transferred collection, and every room keeps its patient list, while the
transport action record is still emitted. -/
theorem transfert_commit_ignore (s : AgentState) (now wc : ℤ) (pid : String)
    (p0 : Patient) (aide : Personnel) (uFull : Unite)
    (h1 : s.docteur.statut = .OCCUPE)
    (h2 : finAtteinte s.docteur.fin_activite now = true)
    (h3 : s.docteur.patient_en_charge = some pid)
    (hocc : (occuperPremierAide now pid
      (s.aides_soignants.map (libererSiFini now))).2 = some aide)
    (hp0 : lookupPatient s pid = some p0)
    (hu : s.unites.find? (fun v => v.nom ==
        (suggerer_unite_transfert s p0).unite) = some uFull)
    (hfull : ¬ uFull.a_de_la_place)
    (hnotin : pid ∉ s.patients_en_attente) :
    lookupPatient (cycle_orchestration s (some now) wc).1 pid =
      some { p0 with statut := .TRANSFERE } ∧
    { aide with
        statut := .OCCUPE, fin_activite := some (now + 15),
        patient_en_charge := some pid } ∈
      (cycle_orchestration s (some now) wc).1.aides_soignants ∧
    (cycle_orchestration s (some now) wc).1.unites = s.unites ∧
    (cycle_orchestration s (some now) wc).1.patients_transferes =
      s.patients_transferes ∧
    (cycle_orchestration s (some now) wc).1.salles.map (fun sa => sa.patients) =
      s.salles.map (fun sa => sa.patients) ∧
    Action.transport aide.nom pid (suggerer_unite_transfert s p0).unite ∈
      (cycle_orchestration s (some now) wc).2 := by
  have he2 := etape2_aide_pleine (etape1 now s) now pid p0 aide uFull
    (by rw [etape1_docteur]; exact h1)
    (by rw [etape1_docteur]; exact h2)
    (by rw [etape1_docteur]; exact h3)
    (by rw [etape1_aides]; exact hocc)
    hp0 hu hfull
  obtain ⟨hun, htr, hsal, hatt, hdoc, hlook, haide, hact⟩ := he2
  have he4 := etape4_frame
    (avecSallesInfs (etape2 (etape1 now s) now).1
      (etape3 now (etape2 (etape1 now s) now).1.salles
        (etape2 (etape1 now s) now).1.infirmieres).1
      (etape3 now (etape2 (etape1 now s) now).1.salles
        (etape2 (etape1 now s) now).1.infirmieres).2.1)
    now wc pid
    (by rw [avecSallesInfs_attente, hatt]; exact hnotin)
  obtain ⟨f1, f2, f3, f4, f5⟩ := he4
  unfold cycle_orchestration
  simp only [Option.getD_some]
  refine ⟨?_, ?_, ?_, ?_, ?_, ?_⟩
  · rw [f5, show lookupPatient (avecSallesInfs (etape2 (etape1 now s) now).1
      (etape3 now (etape2 (etape1 now s) now).1.salles
        (etape2 (etape1 now s) now).1.infirmieres).1
      (etape3 now (etape2 (etape1 now s) now).1.salles
        (etape2 (etape1 now s) now).1.infirmieres).2.1) pid =
        lookupPatient (etape2 (etape1 now s) now).1 pid from rfl]
    exact hlook
  · rw [f4, avecSallesInfs_aides]
    exact haide
  · rw [f1, avecSallesInfs_unites, hun, etape1_unites]
  · rw [f2, avecSallesInfs_transferes, htr, etape1_transferes]
  · rw [f3, avecSallesInfs_salles, etape3_salles_patients, hsal, etape1_salles]
  · rw [hact]
    exact List.mem_append_left _ (List.mem_append_left _ (List.mem_cons_self _ _))

/-- Witness for C10: in etatC10 the consultation of the CRITICAL patient
P1 ends at 50, the aide is free, and the suggested unit CARDIOLOGIE is
full; after the tick P1 is TRANSFERE yet still in room 1 with its room
reference set, occupancies and the transferred list are unchanged. -/
theorem transfert_commit_ignore_temoin :
    lookupPatient (cycle_orchestration etatC10 (some 50) 50).1 "P1" =
      some { id := "P1", prenom := "A", nom := "B", gravite := .ROUGE,
             type_maladie := ["cardiaque"], heure_arrivee := 0,
             statut := .TRANSFERE, salle := some 1 } ∧
    (cycle_orchestration etatC10 (some 50) 50).1.unites = etatC10.unites ∧
    (cycle_orchestration etatC10 (some 50) 50).1.patients_transferes = [] ∧
    (cycle_orchestration etatC10 (some 50) 50).1.salles.map
      (fun sa => sa.patients) = [["P1"]] := by
  have h := transfert_commit_ignore etatC10 50 50 "P1"
    { id := "P1", prenom := "A", nom := "B", gravite := .ROUGE,
      type_maladie := ["cardiaque"], heure_arrivee := 0,
      statut := .EN_CONSULTATION, salle := some 1 }
    { id := "aide_1", nom := "Aide A", type := "MOBILE" }
    { nom := "CARDIOLOGIE", capacite := 1, patients_actuels := 1,
      specialites := ["cardiaque"] }
    (by decide) (by decide) (by decide) (by decide) (by decide) (by decide)
    (by decide) (by decide)
  exact ⟨h.1, h.2.2.1, h.2.2.2.1, h.2.2.2.2.1⟩

/-! ### C4 -/

theorem map_id_of_forall {f : α → α} :
    ∀ l : List α, (∀ x ∈ l, f x = x) → l.map f = l := by
  intro l
  induction l with
  | nil => intro _; rfl
  | cons x rest ih =>
    intro h
    simp only [List.map_cons]
    rw [h x (List.mem_cons_self _ _), ih (fun y hy => h y (List.mem_cons_of_mem _ hy))]

theorem occuperPremiereInfirmiere_none2 (m : ℤ) (l : List Personnel)
    (h : ∀ i ∈ l, i.statut ≠ .DISPONIBLE) :
    occuperPremiereInfirmiere m l = (l, none) :=
  occuperPremiereInfirmiere_none m l h

/-- Step 3 is the identity when every stale room has no available nurse. -/
theorem etape3_sans_surveillance (m : ℤ) :
    ∀ (salles : List SalleAttente) (infs : List Personnel),
    (∀ salle ∈ salles, 15 ≤ m - salle.derniere_surveillance →
      ∀ i ∈ infs, i.statut ≠ .DISPONIBLE) →
    etape3 m salles infs = (salles, infs, []) := by
  intro salles
  induction salles with
  | nil => intro infs _; rfl
  | cons salle rest ih =>
    intro infs h
    unfold etape3
    by_cases hs : 15 ≤ m - salle.derniere_surveillance
    · rw [if_pos hs,
        occuperPremiereInfirmiere_none m infs (h salle (List.mem_cons_self _ _) hs)]
      dsimp only
      rw [ih infs (fun sa hsa hstale => h sa (List.mem_cons_of_mem _ hsa) hstale)]
    · rw [if_neg hs]
      dsimp only
      rw [ih infs (fun sa hsa hstale => h sa (List.mem_cons_of_mem _ hsa) hstale)]

/-- Step 4 does nothing on an empty waiting set. -/
theorem etape4_attente_vide (s : AgentState) (m wc : ℤ)
    (h : s.patients_en_attente = []) : etape4 s m wc = (s, []) := by
  unfold etape4
  by_cases hd : s.docteur.statut = .DISPONIBLE
  · rw [if_pos hd]
    have hsel : selectionner_prochain_patient s wc = none := by
      unfold selectionner_prochain_patient calculer_file_priorite
      rw [h]
      rfl
    rw [hsel]
  · rw [if_neg hd]

/-- A state with no due transitions is a fixpoint of the cycle, with no
actions emitted. -/
theorem cycle_fixe_sans_transitions (s : AgentState) (now wc : ℤ)
    (h : noDueTransitions s now) :
    cycle_orchestration s (some now) wc = (s, []) := by
  obtain ⟨hstaff, hdoc, hsalles, hqueue⟩ := h
  have hinf : s.infirmieres.map (libererSiFini now) = s.infirmieres :=
    map_id_of_forall _ (fun x hx => hstaff x (List.mem_append_left _ hx))
  have haides : s.aides_soignants.map (libererSiFini now) = s.aides_soignants :=
    map_id_of_forall _ (fun x hx => hstaff x (List.mem_append_right _ hx))
  have h1 : etape1 now s = s := by
    unfold etape1
    rw [hinf, haides]
  unfold cycle_orchestration
  simp only [Option.getD_some]
  rw [h1, etape2_sans_fin s now hdoc]
  dsimp only
  rw [etape3_sans_surveillance now s.salles s.infirmieres hsalles]
  dsimp only
  have h3 : avecSallesInfs s s.salles s.infirmieres = s := rfl
  rw [h3]
  by_cases hd : s.docteur.statut = .DISPONIBLE
  · rw [etape4_attente_vide s now wc (hqueue hd)]
    rfl
  · rw [etape4_pas_disponible s now wc hd]
    rfl

/-- C4: the tick is idempotent at a fixed timestamp once every transition
due at that timestamp has been processed: if the state produced by a
first cycle_orchestration(now) has no due transitions left (no pending
staff release, no elapsed consultation, no serviceable stale room, no
startable consultation), then a second call at the same now returns the
same state and an empty action list. -/
theorem cycle_idempotent (s0 : AgentState) (now wc1 wc2 : ℤ)
    (h : noDueTransitions (cycle_orchestration s0 (some now) wc1).1 now) :
    cycle_orchestration (cycle_orchestration s0 (some now) wc1).1 (some now) wc2 =
      ((cycle_orchestration s0 (some now) wc1).1, []) :=
  cycle_fixe_sans_transitions _ now wc2 h

/-- Witness for C4: a first tick at 0 on etatCexC3 starts the waiting
patient's consultation (doctor busy until 5); the resulting state has no
transitions due at 0 and the second tick at 0 is the identity with no
actions. -/
theorem cycle_idempotent_temoin :
    cycle_orchestration (cycle_orchestration etatCexC3 (some 0) 0).1 (some 0) 0 =
      ((cycle_orchestration etatCexC3 (some 0) 0).1, []) :=
  cycle_idempotent etatCexC3 0 0 0 (by decide)

end Hopital
